import Mathlib

/-!
# SecureChat analytics dashboard: session-gated polling and API access

A shallow embedding of the JavaScript sources of the analytics front end
(`lib/api.js`, `lib/servers.js` and the page components) together with the
properties proved about them.  Browser and library built-ins the sources call
(`encodeURIComponent`, `JSON.stringify`, `String`, `Number`, timers) are
modelled after their standard behaviour on the fragment of values described at
each definition; texts that come from the operator or the server are
JavaScript strings, sequences of UTF-16 code units.
-/

namespace SecureChat

/-! ## lib/api.js : the request interceptor -/

/-- HTTP methods used by the front end. -/
inductive Method
  | GET
  | POST
  | DELETE
  deriving DecidableEq, Repr

/-- An axios request configuration as the request interceptor receives it. -/
structure Config where
  method : Method
  url : String
  headers : List (String × String)
  data : Option String
  deriving DecidableEq, Repr

/-- Assignment `headers[k] = v` on a header object: an existing entry for `k`
is overwritten in place, otherwise the entry is added. -/
def setHeader (k v : String) : List (String × String) → List (String × String)
  | [] => [(k, v)]
  | (k', v') :: hs => if k' = k then (k, v) :: hs else (k', v') :: setHeader k v hs

/-- Property read `headers[k]`. -/
def getHeader (k : String) : List (String × String) → Option String
  | [] => none
  | (k', v') :: hs => if k' = k then some v' else getHeader k hs

/-- Truthiness of what `getToken()` returns (`none` is `null`): only a
non-empty text is truthy. -/
def tokenPresent : Option String → Bool
  | none => false
  | some t => decide (t ≠ "")

/-- The function registered with `api.interceptors.request.use` (api.js 8-12).
The argument `token` is the value `getToken()` returns at the call. -/
def requestInterceptor (token : Option String) (config : Config) : Config :=
  match token with
  | some t =>
    if t ≠ "" then
      { config with headers := setHeader "Authorization" ("Bearer " ++ t) config.headers }
    else config
  | none => config

/-- The configuration `api.get(url)`, `api.delete(url)` and `api.post(url, data)`
start from, before the interceptor runs (library default headers left out). -/
def baseConfig (m : Method) (url : String) : Config :=
  { method := m, url := url, headers := [], data := none }

/-- The request that leaves the client for `api.<method>(url)` when the session
store holds `token`. -/
def send (token : Option String) (m : Method) (url : String) : Config :=
  requestInterceptor token (baseConfig m url)

/-! ## lib/api.js : exported operations -/

/-- A response as axios resolves it. -/
structure Response (α : Type) where
  status : Nat
  data : α

/-- The continuation `.then(r => r.data)` shared by every exported operation. -/
def thenData {α : Type} (r : Response α) : α := r.data

/-- The named exports of `lib/api.js` (lines 14-23) with the request line each
one sends; every other name is not exported. -/
def apiExport (name : String) : Option (Method × String) :=
  if name = "fetchSystem" then some (.GET, "/api/stats/system")
  else if name = "fetchUsers" then some (.GET, "/api/stats/users")
  else if name = "fetchMessages" then some (.GET, "/api/stats/messages")
  else if name = "login" then some (.POST, "/api/auth/login")
  else none

/-! ## Observable effects of the page components -/

/-- What a handler of a page component does to the outside world. -/
inductive Effect
  | request (c : Config)
  | push (path : String)
  | setInterval (ms : Int)
  | clearInterval
  deriving DecidableEq, Repr

/-- The requests among a list of effects. -/
def requestsOf : List Effect → List Config
  | [] => []
  | .request c :: es => c :: requestsOf es
  | _ :: es => requestsOf es

/-- The `router.push` targets among a list of effects. -/
def pushesOf : List Effect → List String
  | [] => []
  | .push p :: es => p :: pushesOf es
  | _ :: es => pushesOf es

/-! ## The polling views (index.jsx, system.jsx, users.jsx, messages.jsx, attachments.jsx) -/

/-- The seven views of the dashboard. -/
inductive View
  | overview
  | system
  | users
  | messages
  | attachments
  | servers
  | settings
  deriving DecidableEq, Repr

/-- The names a view's `load` calls, in the order it awaits them, as each page
imports them from `../lib/api`. -/
def View.fetches : View → List String
  | .overview => ["fetchSystem", "fetchUsers", "fetchMessages"]
  | .system => ["fetchSystem"]
  | .users => ["fetchUsers"]
  | .messages => ["fetchMessages"]
  | .attachments => ["fetchAttachments"]
  | .servers => []
  | .settings => []

/-- The views whose activation effect defines `load` and calls `setInterval`. -/
def View.polling : View → Bool
  | .servers => false
  | .settings => false
  | _ => true

/-- The delay handed to `setInterval`: `intervalSec * 1000` on the overview
(index.jsx 27) and the literal of each other page. -/
def View.delayMs (intervalSec : Int) : View → Int
  | .overview => intervalSec * 1000
  | .system => 15000
  | .users => 20000
  | .messages => 20000
  | .attachments => 25000
  | .servers => 0
  | .settings => 0

/-- Component state of a polling view that matters for scheduling: the delay of
the interval that is currently set (`none` when no interval is set) and the
loads that are waiting at an `await`, each with the names it has still to call
once the fetch in flight resolves. -/
structure PollState where
  timer : Option Int
  loads : List (List String)
  deriving DecidableEq, Repr

/-- Run `load` from a point where `names` remain to be called, up to its next
`await`.  Calling a name that `lib/api.js` does not export throws inside the
`try`; the handler reads `e.response`, finds none and the load ends. -/
def runLoad (token : Option String) (st : PollState) : List String → PollState × List Effect
  | [] => (st, [])
  | f :: rest =>
    match apiExport f with
    | none => (st, [])
    | some (m, url) => ({ st with loads := st.loads ++ [rest] }, [.request (send token m url)])

/-- How the fetch a load is waiting on settles: it resolves, or it rejects with
`e.response?.status` as given (`none` when the failure has no response). -/
inductive Outcome
  | ok
  | fail (status : Option Nat)
  deriving DecidableEq, Repr

/-- The body of the activation effect of a polling view (for example
index.jsx 15-29) up to its `return`. -/
def pollActivate (v : View) (intervalSec : Int) (token : Option String) (st : PollState) :
    PollState × List Effect :=
  if !tokenPresent token then (st, [.push "/login"])
  else
    let r := runLoad token st v.fetches
    ({ r.1 with timer := some (v.delayMs intervalSec) },
      r.2 ++ [.setInterval (v.delayMs intervalSec)])

/-- One firing of the interval: the runtime calls `load`. -/
def pollTick (v : View) (token : Option String) (st : PollState) : PollState × List Effect :=
  runLoad token st v.fetches

/-- The fetch awaited by the `i`-th waiting load settles.  On success the load
goes on to its next call; on failure the `catch` pushes `/login` exactly when
the status is 401. -/
def pollSettle (token : Option String) (st : PollState) (i : Nat) (o : Outcome) :
    Option (PollState × List Effect) :=
  match st.loads.get? i with
  | none => none
  | some rest =>
    let st' := { st with loads := st.loads.eraseIdx i }
    match o with
    | .ok => some (runLoad token st' rest)
    | .fail status => some (st', if status = some 401 then [.push "/login"] else [])

/-- The cleanup the activation effect returns: `clearInterval(id)`. -/
def pollCleanup (st : PollState) : PollState × List Effect :=
  ({ st with timer := none }, [.clearInterval])

/-- Events of one polling view. -/
inductive Event
  | activate (intervalSec : Int)
  | tick
  | settle (i : Nat) (o : Outcome)
  | cleanup
  deriving DecidableEq, Repr

/-- A polling view together with the session store and the effects so far. -/
structure Sys where
  token : Option String
  view : PollState
  log : List Effect
  deriving DecidableEq, Repr

/-- The state before the view is first activated. -/
def Sys.init (token : Option String) : Sys :=
  { token := token, view := { timer := none, loads := [] }, log := [] }

/-- Record the result of a handler. -/
def Sys.after (s : Sys) (r : PollState × List Effect) : Sys :=
  { s with view := r.1, log := s.log ++ r.2 }

/-- One step of a polling view.  The activation effect runs only while no
interval of an earlier activation is set, a tick fires only while an interval
is set, and the cleanup runs only for an activation that set one. -/
def step (v : View) (s : Sys) : Event → Option Sys
  | .activate sec =>
    if s.view.timer.isNone then some (s.after (pollActivate v sec s.token s.view)) else none
  | .tick =>
    if s.view.timer.isSome then some (s.after (pollTick v s.token s.view)) else none
  | .settle i o => (pollSettle s.token s.view i o).map s.after
  | .cleanup =>
    if s.view.timer.isSome then some (s.after (pollCleanup s.view)) else none

/-- Run a sequence of events, stopping with `none` at one that is not enabled. -/
def run (v : View) (s : Sys) : List Event → Option Sys
  | [] => some s
  | e :: es => (step v s e).bind fun s' => run v s' es

/-- The states a polling view can reach from its initial state. -/
def Reachable (v : View) (s : Sys) : Prop :=
  ∃ token es, run v (Sys.init token) es = some s

/-! ## index.jsx : the refresh-interval field -/

/-- Value of a run of decimal digits, `none` when the run is empty or holds
another character. -/
def digitsVal : List Char → Option Nat
  | [] => none
  | cs => cs.foldl (fun acc c => if c.isDigit then acc.map (fun n => 10 * n + (c.toNat - 48))
      else none) (some 0)

/-- The built-in `Number(text)` on the texts of a number field that denote
integers: the empty text gives 0, an optionally signed run of decimal digits
gives that integer.  Other texts (fractions, exponents) are outside the
fragment and give `none`. -/
def jsNumber (text : String) : Option Int :=
  match text.data with
  | [] => some 0
  | c :: cs =>
    if c = '-' then (digitsVal cs).map fun n => -(n : Int)
    else if c = '+' then (digitsVal cs).map fun n => (n : Int)
    else (digitsVal (c :: cs)).map fun n => (n : Int)

/-- The `onChange` handler of the refresh-interval field (index.jsx 48):
`setIntervalSec(Number(e.target.value))`; the result is the new `intervalSec`. -/
def onIntervalChange (text : String) : Option Int := jsNumber text

/-! ## JavaScript strings -/

/-- A JavaScript string: a sequence of UTF-16 code units. -/
abbrev JSStr := List (Fin 65536)

/-- A code unit from a number below 65536 (taken modulo 65536). -/
def unit (n : Nat) : Fin 65536 := ⟨n % 65536, Nat.mod_lt _ (by decide)⟩

/-- The code units of one code point: itself below U+10000, a surrogate pair
from there on. -/
def cpUnits (n : Nat) : JSStr :=
  if n < 65536 then [unit n]
  else [unit (55296 + (n - 65536) / 1024), unit (56320 + (n - 65536) % 1024)]

/-- The JavaScript string of a text of Unicode characters. -/
def units (s : String) : JSStr :=
  s.data.flatMap fun c => cpUnits c.toNat

/-- A high (leading) surrogate, U+D800 to U+DBFF. -/
def isHigh (u : Fin 65536) : Bool := 55296 ≤ u.val && u.val ≤ 56319

/-- A low (trailing) surrogate, U+DC00 to U+DFFF. -/
def isLow (u : Fin 65536) : Bool := 56320 ≤ u.val && u.val ≤ 57343

/-- Read a JavaScript string as code points, the way `CodePointAt` pairs
surrogates; the first argument is a high surrogate that waits for its low
one.  `none` when a surrogate stands alone. -/
def codePointsFrom : Option (Fin 65536) → JSStr → Option (List Nat)
  | none, [] => some []
  | some _, [] => none
  | none, u :: rest =>
    if isHigh u then codePointsFrom (some u) rest
    else if isLow u then none
    else (codePointsFrom none rest).map fun cps => u.val :: cps
  | some h, u :: rest =>
    if isLow u then
      (codePointsFrom none rest).map fun cps =>
        ((h.val - 55296) * 1024 + (u.val - 56320) + 65536) :: cps
    else none

/-- The code points of a JavaScript string, `none` when it holds a lone
surrogate. -/
def codePoints (s : JSStr) : Option (List Nat) := codePointsFrom none s

/-- A string without lone surrogates (`String.prototype.isWellFormed`). -/
def wellFormed (s : JSStr) : Bool := (codePoints s).isSome

/-- Join texts with a separator. -/
def joinWith (sep : JSStr) : List JSStr → JSStr
  | [] => []
  | [x] => x
  | x :: y :: rest => x ++ sep ++ joinWith sep (y :: rest)

/-! ## JavaScript values -/

/-- An integer in the range where every integer is a Number of its own
(`Number.isSafeInteger`); such a Number is written in plain decimal digits. -/
structure SafeInt where
  val : Int
  safe : -9007199254740991 ≤ val ∧ val ≤ 9007199254740991

/-- The fragment of JavaScript values used for response bodies and for values
thrown: `num` is a Number that is a safe integer; `real` is a finite Number
that is not one, carried with the text `Number.prototype.toString` gives for
it (such as `1e+21` or `0.5`); arrays; plain objects with their own enumerable
properties in enumeration order.  Functions and symbols are outside the
fragment, so no property of a value is callable. -/
inductive JSVal
  | undefined
  | null
  | bool (b : Bool)
  | num (n : SafeInt)
  | real (text : JSStr)
  | bigint (n : Int)
  | str (s : JSStr)
  | arr (xs : List JSVal)
  | obj (fields : List (JSStr × JSVal))

/-- What a `catch` clause can receive: a value of the fragment, or an instance
of `Error` or of one of its subclasses (as axios and the runtime throw them)
with its name, its message and its further own properties. -/
inductive Thrown
  | value (v : JSVal)
  | error (name message : JSStr) (fields : List (JSStr × JSVal))

/-- Truthiness (`ToBoolean`). -/
def JSVal.truthy : JSVal → Bool
  | .undefined => false
  | .null => false
  | .bool b => b
  | .num n => decide (n.val ≠ 0)
  | .real _ => true
  | .bigint n => decide (n ≠ 0)
  | .str s => decide (s ≠ [])
  | .arr _ => true
  | .obj _ => true

/-- Look a key up among own properties. -/
def lookupField (k : JSStr) : List (JSStr × JSVal) → JSVal
  | [] => .undefined
  | (k', x) :: fs => if k' = k then x else lookupField k fs

/-- Whether a key is among own properties. -/
def hasField (k : JSStr) : List (JSStr × JSVal) → Bool
  | [] => false
  | (k', _) :: fs => decide (k' = k) || hasField k fs

/-- Optional member access `v?.k` for the keys the sources read (`response`,
`data`, `message`): `undefined` on `null` and `undefined`, the own property
of an object, and `undefined` on primitives and arrays, which have no property
of these names. -/
def JSVal.optGet (v : JSVal) (k : JSStr) : JSVal :=
  match v with
  | .obj fs => lookupField k fs
  | _ => .undefined

/-- Optional member access `e?.k` on a caught value. -/
def Thrown.optGet (e : Thrown) (k : JSStr) : JSVal :=
  match e with
  | .value v => v.optGet k
  | .error name message fs =>
    if k = units "message" then .str message
    else if k = units "name" then .str name
    else lookupField k fs

/-- Decimal digits of an integer, with a minus sign when it is negative. -/
def intText (n : Int) : JSStr := units (toString n)

/-- Lower-case hexadecimal digit. -/
def hexLower (n : Nat) : Fin 65536 :=
  if n < 10 then unit (48 + n) else unit (87 + n)

/-- The escape `\uXXXX` of a code unit. -/
def escapeUnit (u : Fin 65536) : JSStr :=
  [unit 92, unit 117, hexLower (u.val / 4096), hexLower (u.val / 256 % 16),
    hexLower (u.val / 16 % 16), hexLower (u.val % 16)]

/-- What `JSON.stringify` writes for one code unit that is not a surrogate. -/
def quoteUnit (u : Fin 65536) : JSStr :=
  if u.val = 34 then [unit 92, unit 34]
  else if u.val = 92 then [unit 92, unit 92]
  else if u.val = 8 then [unit 92, unit 98]
  else if u.val = 12 then [unit 92, unit 102]
  else if u.val = 10 then [unit 92, unit 110]
  else if u.val = 13 then [unit 92, unit 114]
  else if u.val = 9 then [unit 92, unit 116]
  else if u.val < 32 then escapeUnit u
  else [u]

/-- The inside of a JSON string literal (`QuoteJSONString`): a surrogate pair
is kept, a lone surrogate is escaped; the first argument is a high surrogate
that waits for its low one. -/
def quoteFrom : Option (Fin 65536) → JSStr → JSStr
  | none, [] => []
  | some h, [] => escapeUnit h
  | none, u :: rest =>
    if isHigh u then quoteFrom (some u) rest
    else if isLow u then escapeUnit u ++ quoteFrom none rest
    else quoteUnit u ++ quoteFrom none rest
  | some h, u :: rest =>
    if isLow u then h :: u :: quoteFrom none rest
    else if isHigh u then escapeUnit h ++ quoteFrom (some u) rest
    else escapeUnit h ++ quoteUnit u ++ quoteFrom none rest

/-- A text as a JSON string literal. -/
def quoteJSON (s : JSStr) : JSStr :=
  unit 34 :: quoteFrom none s ++ [unit 34]

mutual
/-- The built-in `JSON.stringify(v)`: `none` when it throws (a BigInt is met),
`some none` when it returns `undefined`, `some (some text)` otherwise. -/
def jsonStringify : JSVal → Option (Option JSStr)
  | .undefined => some none
  | .null => some (some (units "null"))
  | .bool b => some (some (if b then units "true" else units "false"))
  | .num n => some (some (intText n.val))
  | .real text => some (some text)
  | .bigint _ => none
  | .str s => some (some (quoteJSON s))
  | .arr xs =>
    (stringifyElems xs).map fun parts =>
      some (units "[" ++ joinWith (units ",") parts ++ units "]")
  | .obj fs =>
    (stringifyFields fs).map fun parts =>
      some (units "\x7b" ++ joinWith (units ",") parts ++ units "\x7d")
/-- Array elements: an element that serializes to `undefined` is written `null`. -/
def stringifyElems : List JSVal → Option (List JSStr)
  | [] => some []
  | x :: xs =>
    match jsonStringify x, stringifyElems xs with
    | some r, some rest => some (r.getD (units "null") :: rest)
    | _, _ => none
/-- Object members: a member that serializes to `undefined` is left out. -/
def stringifyFields : List (JSStr × JSVal) → Option (List JSStr)
  | [] => some []
  | (k, x) :: fs =>
    match jsonStringify x, stringifyFields fs with
    | some (some r), some rest => some ((quoteJSON k ++ units ":" ++ r) :: rest)
    | some none, some rest => some rest
    | _, _ => none
end

mutual
/-- The built-in `String(v)` on a value; `none` when it throws `TypeError`:
an object with an own property `toString` (not callable in the fragment) has
no primitive form. -/
def jsString : JSVal → Option JSStr
  | .undefined => some (units "undefined")
  | .null => some (units "null")
  | .bool b => some (if b then units "true" else units "false")
  | .num n => some (intText n.val)
  | .real text => some text
  | .bigint n => some (intText n)
  | .str s => some s
  | .arr xs => (jsStringElems xs).map fun parts => joinWith (units ",") parts
  | .obj fs => if hasField (units "toString") fs then none else some (units "[object Object]")
/-- Elements of an array as `Array.prototype.join` writes them: nothing for
`undefined` and `null`. -/
def jsStringElems : List JSVal → Option (List JSStr)
  | [] => some []
  | .undefined :: xs => (jsStringElems xs).map fun rest => [] :: rest
  | .null :: xs => (jsStringElems xs).map fun rest => [] :: rest
  | x :: xs =>
    match jsString x, jsStringElems xs with
    | some r, some rest => some (r :: rest)
    | _, _ => none
end

/-- The built-in `String(e)` on a caught value.  For an `Error` instance this
is `Error.prototype.toString`, unless an own property `toString` hides it. -/
def Thrown.jsString : Thrown → Option JSStr
  | .value v => SecureChat.jsString v
  | .error name message fs =>
    if hasField (units "toString") fs then none
    else if name = [] then some message
    else if message = [] then some name
    else some (name ++ units ": " ++ message)

/-! ## Percent-encoding (`encodeURIComponent`, `decodeURIComponent`) -/

/-- Upper-case hexadecimal digit. -/
def hexUpper (n : Nat) : Char :=
  if n < 10 then Char.ofNat (48 + n) else Char.ofNat (55 + n)

/-- Value of a hexadecimal digit of either case. -/
def hexVal (c : Char) : Option Nat :=
  let n := c.toNat
  if 48 ≤ n ∧ n ≤ 57 then some (n - 48)
  else if 65 ≤ n ∧ n ≤ 70 then some (n - 55)
  else if 97 ≤ n ∧ n ≤ 102 then some (n - 87)
  else none

/-- The code points `encodeURIComponent` leaves as they are: letters, digits
and `- _ . ! ~ * ' ( )`. -/
def uriUnreserved (n : Nat) : Bool :=
  (65 ≤ n && n ≤ 90) || (97 ≤ n && n ≤ 122) || (48 ≤ n && n ≤ 57) ||
    n = 45 || n = 95 || n = 46 || n = 33 || n = 126 || n = 42 || n = 39 || n = 40 || n = 41

/-- UTF-8 octets of a code point. -/
def utf8Bytes (n : Nat) : List Nat :=
  if n < 128 then [n]
  else if n < 2048 then [192 + n / 64, 128 + n % 64]
  else if n < 65536 then [224 + n / 4096, 128 + n / 64 % 64, 128 + n % 64]
  else [240 + n / 262144, 128 + n / 4096 % 64, 128 + n / 64 % 64, 128 + n % 64]

/-- One octet written as `%XX`. -/
def percentByte (b : Nat) : List Char :=
  ['%', hexUpper (b / 16), hexUpper (b % 16)]

/-- What `encodeURIComponent` writes for one code point. -/
def encodeCodePoint (n : Nat) : List Char :=
  if uriUnreserved n then [Char.ofNat n] else (utf8Bytes n).flatMap percentByte

/-- The built-in `encodeURIComponent`; `none` when it throws `URIError`, which
it does exactly on a string with a lone surrogate. -/
def encodeURIComponent (s : JSStr) : Option String :=
  (codePoints s).map fun cps => String.mk (cps.flatMap encodeCodePoint)

/-- An item of an encoded text: a character standing for itself or an octet
written as `%XX`. -/
inductive UriItem
  | lit (c : Char)
  | byte (b : Nat)
  deriving DecidableEq, Repr

/-- The items `encodeURIComponent` writes for one code point: the character
itself when it is left as it is, its UTF-8 octets otherwise. -/
def itemsOf (n : Nat) : List UriItem :=
  if uriUnreserved n then [.lit (Char.ofNat n)] else (utf8Bytes n).map UriItem.byte

/-- Split an encoded text into its items; `none` where `%` is not followed by
two hexadecimal digits (`URIError`). -/
def uriItems : List Char → Option (List UriItem)
  | [] => some []
  | c :: rest =>
    if c = '%' then
      match rest with
      | h :: l :: rest' =>
        match hexVal h, hexVal l, uriItems rest' with
        | some a, some b, some items => some (.byte (16 * a + b) :: items)
        | _, _, _ => none
      | _ => none
    else (uriItems rest).map fun items => .lit c :: items

/-- A continuation octet of UTF-8. -/
def isCont (b : Nat) : Bool := 128 ≤ b && b < 192

/-- A code point that is a Unicode character: at most U+10FFFF and not a
surrogate. -/
def isScalar (n : Nat) : Bool := n < 55296 || (57343 < n && n < 1114112)

/-- Where the decoder stands in a UTF-8 sequence: between characters, or
inside one with `k` continuation octets still to come, the bits read so far
and the smallest code point a sequence of this length may encode. -/
inductive Utf8State
  | idle
  | more (k acc lo : Nat)
  deriving DecidableEq, Repr

/-- Turn items back into code points, reading runs of octets as UTF-8; `none`
where the octets are not the UTF-8 encoding of a character (`URIError`). -/
def uriAssembleFrom : Utf8State → List UriItem → Option (List Nat)
  | .idle, [] => some []
  | .more _ _ _, [] => none
  | .idle, .lit c :: ts => (uriAssembleFrom .idle ts).map fun cps => c.toNat :: cps
  | .more _ _ _, .lit _ :: _ => none
  | .idle, .byte b :: ts =>
    if b < 128 then (uriAssembleFrom .idle ts).map fun cps => b :: cps
    else if 192 ≤ b ∧ b < 224 then uriAssembleFrom (.more 1 (b - 192) 128) ts
    else if 224 ≤ b ∧ b < 240 then uriAssembleFrom (.more 2 (b - 224) 2048) ts
    else if 240 ≤ b ∧ b < 248 then uriAssembleFrom (.more 3 (b - 240) 65536) ts
    else none
  | .more k acc lo, .byte b :: ts =>
    if isCont b then
      if k ≤ 1 then
        if lo ≤ acc * 64 + (b - 128) ∧ isScalar (acc * 64 + (b - 128)) then
          (uriAssembleFrom .idle ts).map fun cps => (acc * 64 + (b - 128)) :: cps
        else none
      else uriAssembleFrom (.more (k - 1) (acc * 64 + (b - 128)) lo) ts
    else none

/-- Decoding starts between characters. -/
def uriAssemble (ts : List UriItem) : Option (List Nat) :=
  uriAssembleFrom .idle ts

/-- The built-in `decodeURIComponent`; `none` when it throws `URIError`. -/
def decodeURIComponent (s : String) : Option JSStr :=
  ((uriItems s.data).bind uriAssemble).map fun cps => cps.flatMap cpUnits

/-! ## lib/servers.js -/

/-- The URL `fetchPublicServers(query)` hands to `api.get` (servers.js 3);
the query `none` stands for `null` and `undefined`, the result `none` for the
`URIError` that `encodeURIComponent` throws before any URL exists. -/
def publicServersUrl (query : Option JSStr) : Option String :=
  match query with
  | some q =>
    if q ≠ [] then
      (encodeURIComponent q).map fun enc => "/api/groups/public/list" ++ ("?query=" ++ enc)
    else some ("/api/groups/public/list" ++ "")
  | none => some ("/api/groups/public/list" ++ "")

/-- The request of `fetchPublicServers(query)`; `none` when the call throws
and nothing is sent. -/
def fetchPublicServers (token : Option String) (query : Option JSStr) : Option Config :=
  (publicServersUrl query).map fun url => send token .GET url

/-- The URL `deleteGroup(group_id)` hands to `api.delete` (servers.js 4);
`none` for the `URIError` of `encodeURIComponent`. -/
def deleteGroupUrl (group_id : JSStr) : Option String :=
  (encodeURIComponent group_id).map fun enc => "/api/groups/delete?group_id=" ++ enc

/-- The request of `deleteGroup(group_id)`; `none` when the call throws and
nothing is sent. -/
def deleteGroup (token : Option String) (group_id : JSStr) : Option Config :=
  (deleteGroupUrl group_id).map fun url => send token .DELETE url

/-! ## pages/servers.jsx and pages/settings.jsx -/

/-- A group record of the list response. -/
structure Group where
  id : JSStr
  name : JSStr
  owner_id : JSStr
  invite_code : JSStr
  created_at : Nat
  deriving DecidableEq, Repr

/-- The component state of the servers page (servers.jsx 7-9). -/
structure ServersState where
  items : List Group
  q : JSStr
  loading : Bool
  deriving DecidableEq, Repr

/-- The expression `q || null`: the text, or `null` (`none`) when it is empty. -/
def orNull (q : JSStr) : Option JSStr :=
  if q ≠ [] then some q else none

/-- The function `load(query)` up to its `await` (servers.jsx 12-15): the
loading flag is raised and the list request leaves.  When
`fetchPublicServers` throws, the `catch` and `finally` run at once
(servers.jsx 17-20): nothing is sent, the items are emptied and the flag is
lowered again. -/
def serversLoad (token : Option String) (s : ServersState) (query : Option JSStr) :
    ServersState × List Config :=
  match fetchPublicServers token query with
  | some c => ({ s with loading := true }, [c])
  | none => ({ s with items := [], loading := false }, [])

/-- The rest of `load` once the list request settles (servers.jsx 16-20):
`res` is `res.groups` of a response, `none` when the request failed or the
response has no groups. -/
def serversLoadSettle (s : ServersState) (res : Option (List Group)) : ServersState :=
  { s with items := res.getD [], loading := false }

/-- The activation effect of the servers page (servers.jsx 23): `load(null)`. -/
def serversActivate (token : Option String) (s : ServersState) : ServersState × List Config :=
  serversLoad token s none

/-- The handler `onSearch` (servers.jsx 25). -/
def onSearch (token : Option String) (s : ServersState) : ServersState × List Config :=
  serversLoad token s (orNull s.q)

/-- The `onChange` handler of the search box (servers.jsx 50). -/
def onType (s : ServersState) (text : JSStr) : ServersState :=
  { s with q := text }

/-- The message `onDelete` hands to `alert` (servers.jsx 35-41); `none` when
an exception leaves the handler before `alert` is reached.  The inner `catch`
is entered when `JSON.stringify` or `String` throws, and calls `String(e)`
itself, so a `String(e)` that throws ends the handler. -/
def deleteMessage (e : Thrown) : Option JSVal :=
  if ((e.optGet (units "response")).optGet (units "data")).truthy then
    match jsonStringify ((e.optGet (units "response")).optGet (units "data")) with
    | some (some text) => some (.str text)
    | some none => some .undefined
    | none => e.jsString.map JSVal.str
  else if (e.optGet (units "message")).truthy then some (e.optGet (units "message"))
  else e.jsString.map JSVal.str

/-- The `URIError` that `encodeURIComponent` throws, with the message V8 gives
it. -/
def uriError : Thrown :=
  .error (units "URIError") (units "URI malformed") []

/-- What `onDelete` keeps across its `await`: the `q` of the render whose
handler was clicked. -/
structure PendingDelete where
  q : JSStr
  deriving DecidableEq, Repr

/-- How `deleteGroup` settles: it resolves, or it rejects with a value. -/
inductive DeleteOutcome
  | ok
  | fail (e : Thrown)

/-- What a handler of the servers page leaves behind. -/
structure ServersResult where
  state : ServersState
  requests : List Config
  alerts : List JSVal

/-- The handler `onDelete(id)` up to its `await` (servers.jsx 27-30);
`confirmed` is the answer of `confirm(...)`.  When `deleteGroup` throws
before sending, the `catch` of `onDelete` runs at once with the `URIError`. -/
def onDeleteClick (token : Option String) (s : ServersState) (id : JSStr) (confirmed : Bool) :
    Option PendingDelete × ServersResult :=
  if !confirmed then (none, { state := s, requests := [], alerts := [] })
  else
    match deleteGroup token id with
    | some c => (some { q := s.q }, { state := s, requests := [c], alerts := [] })
    | none => (none, { state := s, requests := [], alerts := (deleteMessage uriError).toList })

/-- The rest of `onDelete` once `deleteGroup` settles (servers.jsx 31-42); `s`
is the component state at that moment. -/
def onDeleteSettle (token : Option String) (s : ServersState) (p : PendingDelete)
    (o : DeleteOutcome) : ServersResult :=
  match o with
  | .ok =>
    let r := serversLoad token s (orNull p.q)
    { state := r.1, requests := r.2, alerts := [] }
  | .fail e => { state := s, requests := [], alerts := (deleteMessage e).toList }

/-- The whole of `onDelete(id)` when nothing else happens during its `await`. -/
def onDelete (token : Option String) (s : ServersState) (id : JSStr) (confirmed : Bool)
    (o : DeleteOutcome) : ServersResult :=
  match onDeleteClick token s id confirmed with
  | (none, r) => r
  | (some p, r) =>
    let r' := onDeleteSettle token r.state p o
    { state := r'.state, requests := r.requests ++ r'.requests, alerts := r.alerts ++ r'.alerts }

/-- What the operator does on the servers page. -/
inductive ServersEvent
  | type (text : JSStr)
  | search
  | loaded (res : Option (List Group))
  | deleteClick (id : JSStr) (confirmed : Bool)
  | deleteSettle (o : DeleteOutcome)

/-- The servers page with the session store, the deletes waiting for their
answer and everything sent and shown so far. -/
structure ServersSys where
  token : Option String
  view : ServersState
  pending : List PendingDelete
  sent : List Config
  alerts : List JSVal

/-- The servers page right after its activation effect has run. -/
def ServersSys.init (token : Option String) : ServersSys :=
  let r := serversActivate token { items := [], q := [], loading := false }
  { token := token, view := r.1, pending := [], sent := r.2, alerts := [] }

/-- One event on the servers page; a delete answer goes to the oldest waiting
delete. -/
def serversStep (s : ServersSys) : ServersEvent → ServersSys
  | .type text => { s with view := onType s.view text }
  | .search =>
    let r := onSearch s.token s.view
    { s with view := r.1, sent := s.sent ++ r.2 }
  | .loaded res => { s with view := serversLoadSettle s.view res }
  | .deleteClick id confirmed =>
    let r := onDeleteClick s.token s.view id confirmed
    { s with view := r.2.state, pending := s.pending ++ r.1.toList,
             sent := s.sent ++ r.2.requests, alerts := s.alerts ++ r.2.alerts }
  | .deleteSettle o =>
    match s.pending with
    | [] => s
    | p :: ps =>
      let r := onDeleteSettle s.token s.view p o
      { s with view := r.state, pending := ps, sent := s.sent ++ r.requests,
               alerts := s.alerts ++ r.alerts }

/-- Run a history of events on the servers page. -/
def serversRun (s : ServersSys) : List ServersEvent → ServersSys
  | [] => s
  | e :: es => serversRun (serversStep s e) es

/-- The URL of the most recent list request among the requests sent. -/
def lastListUrl (sent : List Config) : Option String :=
  ((sent.filter fun c => c.method = .GET).getLast?).map fun c => c.url

/-- The activation effect of the settings page (settings.jsx 8). -/
def settingsActivate (token : Option String) : List Effect :=
  if !tokenPresent token then [.push "/login"] else []

/-- What the activation effect of each view does when it runs with the session
store holding `token`; `intervalSec` is the overview's interval state. -/
def activationEffects (v : View) (intervalSec : Int) (token : Option String) : List Effect :=
  match v with
  | .servers =>
    (serversActivate token { items := [], q := [], loading := false }).2.map Effect.request
  | .settings => settingsActivate token
  | _ => (pollActivate v intervalSec token { timer := none, loads := [] }).2

/-- The URLs of a list of requests. -/
def urlsOf (cs : List Config) : List String :=
  cs.map fun c => c.url

/-! ## Concrete states used in examples -/

/-- The request the system page sends while the store holds `tok`. -/
def systemRequest : Config :=
  { method := .GET, url := "/api/stats/system",
    headers := [("Authorization", "Bearer tok")], data := none }

/-- The system page after activation with token `tok`: the first load waits
for its answer and the interval is set. -/
def sysWaiting : Sys :=
  { token := some "tok", view := { timer := some 15000, loads := [[]] },
    log := [.request systemRequest, .setInterval 15000] }

/-- The state `sysWaiting` after the first load was answered with 401. -/
def sysRejected : Sys :=
  { token := some "tok", view := { timer := some 15000, loads := [] },
    log := [.request systemRequest, .setInterval 15000, .push "/login"] }

/-- The state `sysRejected` after a further tick. -/
def sysRejectedTicked : Sys :=
  { token := some "tok", view := { timer := some 15000, loads := [[]] },
    log := [.request systemRequest, .setInterval 15000, .push "/login",
            .request systemRequest] }

/-- The state `sysWaiting` after a tick that fires before the first load is
answered. -/
def sysOverlapping : Sys :=
  { token := some "tok", view := { timer := some 15000, loads := [[], []] },
    log := [.request systemRequest, .setInterval 15000, .request systemRequest] }

/-- The servers page showing one group, with `foo` in the search box. -/
def serversShown : ServersState :=
  { items := [{ id := units "g1", name := units "one", owner_id := units "u1",
                invite_code := units "abc", created_at := 0 }],
    q := units "foo", loading := false }

/-- A 404 failure of axios whose response carries the payload
`detail: not found`. -/
def notFoundError : Thrown :=
  .error (units "AxiosError") (units "Request failed with status code 404")
    [(units "response", .obj [(units "status", .num ⟨404, by decide⟩),
        (units "data", .obj [(units "detail", .str (units "not found"))])])]

/-- A failure of axios whose response payload needs every rule of the JSON
writer: quotes, a backslash, control characters, lone and paired surrogates,
an array with holes, numbers, booleans, a member that is left out and a nested
object. -/
def richPayloadError : Thrown :=
  .error (units "AxiosError") (units "Request failed with status code 422")
    [(units "response", .obj [(units "data", .obj
        [(units "msg", .str (units "say \x22hi\x22\n\x01\x5c" ++
            [unit 56832, unit 120, unit 55357, unit 121, unit 55296, unit 55357, unit 56832,
             unit 55296])),
         (units "ctl", .str (units "\x08\x0c\r\t\x1f")),
         (units "list", .arr [.num ⟨1, by decide⟩, .null, .undefined, .bool true, .bool false,
            .num ⟨-7, by decide⟩, .real (units "1e+21"), .real (units "0.5")]),
         (units "skip", .undefined),
         (units "in", .obj [(units "k", .arr [])])])])]

/-- A failure of axios whose response body is the number 0, which is falsy. -/
def zeroPayloadError : Thrown :=
  .error (units "AxiosError") (units "Request failed with status code 500")
    [(units "response", .obj [(units "data", .num ⟨0, by decide⟩)])]

/-- A failure of axios whose response body is empty. -/
def emptyPayloadError : Thrown :=
  .error (units "AxiosError") (units "Request failed with status code 500")
    [(units "response", .obj [(units "data", .str [])])]

/-- A failure of axios whose response payload holds a BigInt, which
`JSON.stringify` refuses. -/
def bigintPayloadError : Thrown :=
  .error (units "AxiosError") (units "bad") [(units "response",
    .obj [(units "data", .arr [.bigint 1])])]

/-- A thrown plain object whose own `toString` is the number 5. -/
def noStringForm : Thrown :=
  .value (.obj [(units "toString", .num ⟨5, by decide⟩)])

/-! ## Theorems: activation -/

/-- Every view except the servers page guards its activation: with no token in
the session store the only effect is the push to `/login`. -/
theorem activation_guarded (v : View) (intervalSec : Int) (token : Option String)
    (hv : v ≠ .servers) (ht : tokenPresent token = false) :
    activationEffects v intervalSec token = [.push "/login"] := by
  cases v <;> simp_all [activationEffects, pollActivate, settingsActivate]

/-- C1: the servers page has no guard in its activation effect; with the
session store empty it sends the unfiltered list request, without an
Authorization header, and pushes nothing. -/
theorem servers_activation_unguarded (intervalSec : Int) :
    activationEffects .servers intervalSec none =
        [.request { method := .GET, url := "/api/groups/public/list", headers := [], data := none }]
      ∧ requestsOf (activationEffects .servers intervalSec none) ≠ []
      ∧ pushesOf (activationEffects .servers intervalSec none) = [] := by
  have h : activationEffects .servers intervalSec none =
      [.request { method := .GET, url := "/api/groups/public/list", headers := [], data := none }] := by
    have hbare : "/api/groups/public/list" ++ "" = "/api/groups/public/list" := by decide
    simp [activationEffects, serversActivate, serversLoad, fetchPublicServers, send,
      requestInterceptor, baseConfig, publicServersUrl, hbare]
  rw [h]
  simp [requestsOf, pushesOf]

/-! ## Theorems: the request interceptor -/

theorem getHeader_setHeader_same (k v : String) (hs : List (String × String)) :
    getHeader k (setHeader k v hs) = some v := by
  induction hs with
  | nil => simp [setHeader, getHeader]
  | cons h hs ih =>
    obtain ⟨k', v'⟩ := h
    by_cases hk : k' = k <;> simp [setHeader, getHeader, hk, ih]

theorem getHeader_setHeader_other (k k₂ v : String) (hs : List (String × String))
    (hne : k₂ ≠ k) : getHeader k₂ (setHeader k v hs) = getHeader k₂ hs := by
  induction hs with
  | nil => simp [setHeader, getHeader, Ne.symm hne]
  | cons h hs ih =>
    obtain ⟨k', v'⟩ := h
    by_cases hk : k' = k
    · subst hk
      simp [setHeader, getHeader, Ne.symm hne]
    · by_cases hk₂ : k' = k₂
      · subst hk₂
        simp [setHeader, getHeader, hk]
      · simp [setHeader, getHeader, hk, hk₂, ih]

/-- C7: with a non-empty token `t` in the store the interceptor sets the
Authorization header to `Bearer t` and changes no other header and no other
field; with the store empty (`null` or the empty text) it returns the
configuration as it received it. -/
theorem interceptor_spec (config : Config) :
    (∀ t : String, t ≠ "" →
        getHeader "Authorization" (requestInterceptor (some t) config).headers
            = some ("Bearer " ++ t)
        ∧ (∀ k, k ≠ "Authorization" →
            getHeader k (requestInterceptor (some t) config).headers = getHeader k config.headers)
        ∧ (requestInterceptor (some t) config).method = config.method
        ∧ (requestInterceptor (some t) config).url = config.url
        ∧ (requestInterceptor (some t) config).data = config.data)
      ∧ (∀ token, tokenPresent token = false → requestInterceptor token config = config) := by
  refine ⟨fun t ht => ?_, fun token h => ?_⟩
  · have h : requestInterceptor (some t) config =
        { config with headers := setHeader "Authorization" ("Bearer " ++ t) config.headers } := by
      simp [requestInterceptor, ht]
    rw [h]
    exact ⟨getHeader_setHeader_same _ _ _,
      fun k hk => getHeader_setHeader_other _ _ _ _ hk, rfl, rfl, rfl⟩
  · cases token with
    | none => rfl
    | some t =>
      have : t = "" := by simpa [tokenPresent] using h
      simp [requestInterceptor, this]

/-- C7 at a concrete input: token `abc` on a configuration that already holds
two headers. -/
theorem interceptor_spec_witness :
    getHeader "Authorization"
        (requestInterceptor (some "abc")
          { method := .GET, url := "/api/stats/users",
            headers := [("Accept", "application/json"), ("Authorization", "old")],
            data := none }).headers = some ("Bearer " ++ "abc")
      ∧ requestInterceptor (some "")
          { method := .GET, url := "/api/stats/users", headers := [("Accept", "application/json")],
            data := none }
        = { method := .GET, url := "/api/stats/users", headers := [("Accept", "application/json")],
            data := none } :=
  ⟨((interceptor_spec _).1 "abc" (by decide)).1, (interceptor_spec _).2 (some "") (by decide)⟩

/-! ## Theorems: the exported fetch operations -/

/-- C8: `lib/api.js` exports a GET for the system, users and messages
domains, each returning the response body as it is, and none for attachments:
the name the attachments page imports is not exported, so that page's load
sends nothing. -/
theorem fetchAttachments_not_exported :
    apiExport "fetchSystem" = some (.GET, "/api/stats/system")
      ∧ apiExport "fetchUsers" = some (.GET, "/api/stats/users")
      ∧ apiExport "fetchMessages" = some (.GET, "/api/stats/messages")
      ∧ (∀ (α : Type) (r : Response α), thenData r = r.data)
      ∧ apiExport "fetchAttachments" = none
      ∧ (∀ name, apiExport name ≠ some (.GET, "/api/stats/attachments"))
      ∧ (∀ token st, pollTick .attachments token st = (st, [])) := by
  refine ⟨by decide, by decide, by decide, fun _ _ => rfl, by decide, ?_, ?_⟩
  · intro name
    unfold apiExport
    split_ifs <;> simp
  · intro token st
    simp [pollTick, View.fetches, runLoad, show apiExport "fetchAttachments" = none by decide]

/-! ## Theorems: the refresh interval -/

/-- C10: the value of the interval field goes into `setInterval` as it is.
Clearing the field gives `intervalSec = 0` and a delay of 0 ms; entering 5 or
100 gives 5000 ms and 100000 ms: all outside 10 to 60 seconds. -/
theorem interval_not_clamped :
    onIntervalChange "" = some 0
      ∧ activationEffects .overview 0 (some "tok") =
          [.request (send (some "tok") .GET "/api/stats/system"), .setInterval 0]
      ∧ onIntervalChange "5" = some 5
      ∧ View.delayMs 5 .overview = 5000
      ∧ onIntervalChange "100" = some 100
      ∧ View.delayMs 100 .overview = 100000
      ∧ onIntervalChange "-3" = some (-3)
      ∧ (∀ n : Int, View.delayMs n .overview = n * 1000)
      ∧ ¬ (10000 ≤ View.delayMs 0 .overview ∧ View.delayMs 0 .overview ≤ 60000)
      ∧ ¬ (10000 ≤ View.delayMs 5 .overview ∧ View.delayMs 5 .overview ≤ 60000)
      ∧ ¬ (10000 ≤ View.delayMs 100 .overview ∧ View.delayMs 100 .overview ≤ 60000) := by
  refine ⟨by decide, ?_, by decide, by decide, by decide, by decide, by decide, fun _ => rfl,
    by decide, by decide, by decide⟩
  simp [activationEffects, pollActivate, tokenPresent, View.fetches, runLoad, View.delayMs,
    show apiExport "fetchSystem" = some (.GET, "/api/stats/system") by decide]

/-! ## Theorems: the polling views as a step system -/

/-- C2 fails on the code: on the system page with token `tok`, the first load
is answered with 401 and then a tick fires.  In the state reached the token is
still stored, the interval is still set, and the tick has sent a second
request that carries `Bearer tok`. -/
theorem unauthorized_keeps_token_and_interval :
    run .system (Sys.init (some "tok")) [.activate 15, .settle 0 (.fail (some 401)), .tick]
        = some sysRejectedTicked
      ∧ sysRejectedTicked.token = some "tok"
      ∧ sysRejectedTicked.view.timer = some 15000
      ∧ requestsOf sysRejectedTicked.log = [systemRequest, systemRequest]
      ∧ getHeader "Authorization" systemRequest.headers = some "Bearer tok" := by
  refine ⟨?_, ?_, ?_, ?_, ?_⟩ <;> decide

/-- C2 as amended: on every polling view, when the fetch of a waiting load
fails with 401, the step pushes `/login` and nothing else, that load is gone, and the token and the
interval are as before; the cleanup cancels the interval, and after it no tick
fires. -/
theorem unauthorized_settle (v : View) (s s' : Sys) (i : Nat) (_hv : v.polling = true)
    (h : step v s (.settle i (.fail (some 401))) = some s') :
    s'.log = s.log ++ [.push "/login"]
      ∧ s'.view.loads = s.view.loads.eraseIdx i
      ∧ s'.token = s.token
      ∧ s'.view.timer = s.view.timer
      ∧ (∀ c, step v s' .cleanup = some c →
          c.view.timer = none ∧ c.log = s'.log ++ [.clearInterval] ∧ step v c .tick = none) := by
  simp only [step, pollSettle] at h
  cases hl : s.view.loads.get? i with
  | none =>
    rw [hl] at h
    simp at h
  | some rest =>
    rw [hl] at h
    simp only [Option.map_some', Option.some.injEq, if_true] at h
    subst h
    refine ⟨rfl, rfl, rfl, rfl, ?_⟩
    intro c hc
    simp only [step, Sys.after, pollCleanup] at hc
    split_ifs at hc with ht
    simp only [Option.some.injEq] at hc
    subst hc
    exact ⟨rfl, rfl, by simp [step]⟩

/-- C2 as amended, at a concrete step: the system page with token `tok` whose
first load is answered with 401. -/
theorem unauthorized_settle_witness :
    step .system sysWaiting (.settle 0 (.fail (some 401))) = some sysRejected
      ∧ sysRejected.log = sysWaiting.log ++ [.push "/login"]
      ∧ sysRejected.view.loads = sysWaiting.view.loads.eraseIdx 0
      ∧ sysRejected.token = sysWaiting.token
      ∧ sysRejected.view.timer = sysWaiting.view.timer :=
  ⟨by decide,
   (unauthorized_settle .system sysWaiting sysRejected 0 rfl (by decide)).1,
   (unauthorized_settle .system sysWaiting sysRejected 0 rfl (by decide)).2.1,
   (unauthorized_settle .system sysWaiting sysRejected 0 rfl (by decide)).2.2.1,
   (unauthorized_settle .system sysWaiting sysRejected 0 rfl (by decide)).2.2.2.1⟩

/-- C3 fails on the code: on the system page a tick that fires while the first
load is still waiting sends a second request; two loads are then in flight. -/
theorem tick_overlaps_outstanding_load :
    run .system (Sys.init (some "tok")) [.activate 15] = some sysWaiting
      ∧ sysWaiting.view.loads.length = 1
      ∧ step .system sysWaiting .tick = some sysOverlapping
      ∧ sysOverlapping.view.loads.length = 2
      ∧ requestsOf sysOverlapping.log = [systemRequest, systemRequest] := by
  refine ⟨?_, ?_, ?_, ?_, ?_⟩ <;> decide

/-- The first name each of these views calls is exported. -/
theorem first_fetch_exported (v : View)
    (hv : v = .overview ∨ v = .system ∨ v = .users ∨ v = .messages) :
    ∃ f m url rest, v.fetches = f :: rest ∧ apiExport f = some (m, url) := by
  rcases hv with h | h | h | h <;> subst h
  · exact ⟨_, .GET, "/api/stats/system", _, rfl, by decide⟩
  · exact ⟨_, .GET, "/api/stats/system", _, rfl, by decide⟩
  · exact ⟨_, .GET, "/api/stats/users", _, rfl, by decide⟩
  · exact ⟨_, .GET, "/api/stats/messages", _, rfl, by decide⟩

/-- A tick on one of these views adds one waiting load and one request. -/
theorem pollTick_adds_load (v : View) (token : Option String) (st : PollState)
    (hv : v = .overview ∨ v = .system ∨ v = .users ∨ v = .messages) :
    (pollTick v token st).1.loads.length = st.loads.length + 1
      ∧ (requestsOf (pollTick v token st).2).length = 1
      ∧ (pollTick v token st).2.length = 1
      ∧ (pollTick v token st).1.timer = st.timer := by
  obtain ⟨f, m, url, rest, hf, he⟩ := first_fetch_exported v hv
  simp only [pollTick]
  rw [hf]
  simp [runLoad, he, requestsOf]

/-- C3 as amended: on the overview, system, users and messages pages every
tick that fires while the interval is set runs `load`, which sends one new
request and adds one waiting load, whatever loads are still waiting. -/
theorem tick_starts_new_load (v : View) (s : Sys)
    (hv : v = .overview ∨ v = .system ∨ v = .users ∨ v = .messages)
    (ht : s.view.timer.isSome = true) :
    step v s .tick = some (s.after (pollTick v s.token s.view))
      ∧ (s.after (pollTick v s.token s.view)).view.loads.length = s.view.loads.length + 1
      ∧ (s.after (pollTick v s.token s.view)).log = s.log ++ (pollTick v s.token s.view).2
      ∧ (requestsOf (pollTick v s.token s.view).2).length = 1
      ∧ (pollTick v s.token s.view).2.length = 1
      ∧ (s.after (pollTick v s.token s.view)).view.timer = s.view.timer := by
  obtain ⟨h1, h2, h3, h4⟩ := pollTick_adds_load v s.token s.view hv
  refine ⟨?_, h1, rfl, h2, h3, h4⟩
  simp only [step, ht, if_true]

/-- C3 as amended, at a concrete state: the system page with one load waiting. -/
theorem tick_starts_new_load_witness :
    step .system sysWaiting .tick
        = some (sysWaiting.after (pollTick .system sysWaiting.token sysWaiting.view))
      ∧ (sysWaiting.after (pollTick .system sysWaiting.token sysWaiting.view)).view.loads.length
        = sysWaiting.view.loads.length + 1 :=
  ⟨(tick_starts_new_load .system sysWaiting (Or.inr (Or.inl rfl)) rfl).1,
   (tick_starts_new_load .system sysWaiting (Or.inr (Or.inl rfl)) rfl).2.1⟩

/-- Running a history and then one more event is running the longer history. -/
theorem run_append_one (v : View) (e : Event) :
    ∀ (es : List Event) (a b : Sys), run v a es = some b → run v a (es ++ [e]) = step v b e := by
  intro es
  induction es with
  | nil =>
    intro a b h
    simp only [run, Option.some.injEq] at h
    subst h
    cases hstep : step v a e <;> simp [run, hstep]
  | cons e' es ihes =>
    intro a b h
    simp only [run, List.cons_append] at h ⊢
    cases hstep : step v a e' with
    | none => simp [hstep] at h
    | some a' =>
      simp only [hstep, Option.some_bind] at h ⊢
      exact ihes a' b h

/-- Ticks alone reach any number of loads in flight. -/
theorem loads_unbounded (n : Nat) :
    ∃ s, Reachable .system s ∧ s.view.loads.length = n + 1 ∧ s.view.timer.isSome = true := by
  induction n with
  | zero =>
    exact ⟨_, ⟨some "tok", [.activate 15], rfl⟩, by decide, by decide⟩
  | succ n ih =>
    obtain ⟨s, ⟨token, es, hr⟩, hl, ht⟩ := ih
    obtain ⟨hl', -, -, ht'⟩ := pollTick_adds_load .system s.token s.view (Or.inr (Or.inl rfl))
    have hs : step .system s .tick = some (s.after (pollTick .system s.token s.view)) := by
      simp only [step, ht, if_true]
    refine ⟨s.after (pollTick .system s.token s.view), ⟨token, es ++ [.tick], ?_⟩, ?_, ?_⟩
    · rw [run_append_one .system .tick es _ s hr, hs]
    · show (pollTick .system s.token s.view).1.loads.length = n + 1 + 1
      omega
    · show (pollTick .system s.token s.view).1.timer.isSome = true
      rw [ht']
      exact ht

/-! ## Theorems: the delete action of the servers page -/

/-- C5: when the confirmation is answered with false, `onDelete` leaves no
continuation, sends no request, shows no alert and returns the component state
(items, search text, loading flag) as it was. -/
theorem delete_unconfirmed_noop (token : Option String) (s : ServersState) (id : JSStr)
    (o : DeleteOutcome) :
    (onDeleteClick token s id false).1 = none
      ∧ (onDelete token s id false o).requests = []
      ∧ (onDelete token s id false o).alerts = []
      ∧ (onDelete token s id false o).state = s
      ∧ (∀ sys : ServersSys,
          (serversStep sys (.deleteClick id false)).sent = sys.sent
          ∧ (serversStep sys (.deleteClick id false)).alerts = sys.alerts
          ∧ (serversStep sys (.deleteClick id false)).view = sys.view
          ∧ (serversStep sys (.deleteClick id false)).pending = sys.pending) := by
  refine ⟨rfl, rfl, rfl, rfl, fun sys => ?_⟩
  simp [serversStep, onDeleteClick]

/-- C4 fails on the code: after a search for `foo` the operator types `bar`
without searching and deletes `g1`.  The last list query sent was `foo`; the
reload after the delete asks for `bar`. -/
theorem delete_reload_ignores_last_query :
    lastListUrl (serversRun (ServersSys.init (some "tok"))
        [.type (units "foo"), .search, .type (units "bar"),
         .deleteClick (units "g1") true]).sent
      = some "/api/groups/public/list?query=foo"
    ∧ urlsOf (serversRun (ServersSys.init (some "tok"))
        [.type (units "foo"), .search, .type (units "bar"),
         .deleteClick (units "g1") true, .deleteSettle .ok]).sent
      = [ "/api/groups/public/list", "/api/groups/public/list?query=foo",
          "/api/groups/delete?group_id=g1", "/api/groups/public/list?query=bar" ] := by
  constructor <;> decide

/-- C4 as amended: a confirmed delete that succeeds sends the delete request
and then one list request whose query is the text the search box held when the
delete was clicked (no query when it was empty), and raises the loading flag;
the reload is exactly the request `fetchPublicServers` makes of that text.
After a search for `foo` with the box left alone, deleting `g1` reloads with
query `foo`. -/
theorem delete_reloads_with_box_text :
    (∀ (token : Option String) (s : ServersState) (id : JSStr) (del list : Config),
        deleteGroup token id = some del →
        fetchPublicServers token (orNull s.q) = some list →
        (onDelete token s id true .ok).requests = [del, list]
          ∧ (onDelete token s id true .ok).alerts = []
          ∧ (onDelete token s id true .ok).state = { s with loading := true })
      ∧ (∀ (token : Option String) (s : ServersState) (id : JSStr) (del : Config),
          deleteGroup token id = some del →
          (onDeleteClick token s id true).1 = some { q := s.q })
      ∧ (∀ (token : Option String) (s : ServersState) (p : PendingDelete),
          (onDeleteSettle token s p .ok).requests
              = (fetchPublicServers token (orNull p.q)).toList
          ∧ (onDeleteSettle token s p .ok).alerts = [])
      ∧ (∀ (token : Option String) (s : ServersState) (p : PendingDelete) (list : Config),
          fetchPublicServers token (orNull p.q) = some list →
          (onDeleteSettle token s p .ok).requests = [list]
          ∧ (onDeleteSettle token s p .ok).state = { s with loading := true })
      ∧ orNull [] = none
      ∧ (∀ q : JSStr, q ≠ [] → orNull q = some q)
      ∧ urlsOf (serversRun (ServersSys.init (some "tok"))
          [.type (units "foo"), .search, .deleteClick (units "g1") true, .deleteSettle .ok]).sent
        = [ "/api/groups/public/list", "/api/groups/public/list?query=foo",
            "/api/groups/delete?group_id=g1", "/api/groups/public/list?query=foo" ] := by
  refine ⟨fun token s id del list hd hl => ?_, fun token s id del hd => ?_,
    fun token s p => ⟨?_, rfl⟩, fun token s p list hl => ?_, rfl,
    fun q hq => by simp [orNull, hq], by decide⟩
  · simp [onDelete, onDeleteClick, onDeleteSettle, serversLoad, hd, hl]
  · simp [onDeleteClick, hd]
  · simp only [onDeleteSettle, serversLoad]
    cases fetchPublicServers token (orNull p.q) <;> rfl
  · simp [onDeleteSettle, serversLoad, hl]

/-- C4 as amended, at a concrete state: `foo` in the search box, group `g1`
deleted. -/
theorem delete_reloads_with_box_text_witness :
    (onDelete (some "tok") serversShown (units "g1") true .ok).requests
      = [ send (some "tok") .DELETE "/api/groups/delete?group_id=g1",
          send (some "tok") .GET "/api/groups/public/list?query=foo" ] :=
  (delete_reloads_with_box_text.1 (some "tok") serversShown (units "g1") _ _
    (by decide) (by decide)).1

/-- A truthy value of the fragment never serializes to `undefined`. -/
theorem jsonStringify_truthy (v : JSVal) (h : v.truthy = true) :
    jsonStringify v ≠ some none := by
  cases v with
  | undefined => simp [JSVal.truthy] at h
  | null => simp [jsonStringify]
  | bool b => simp [jsonStringify]
  | num n => simp [jsonStringify]
  | real t => simp [jsonStringify]
  | bigint n => simp [jsonStringify]
  | str s => simp [jsonStringify]
  | arr xs => cases hx : stringifyElems xs <;> simp [jsonStringify, hx]
  | obj fs => cases hx : stringifyFields fs <;> simp [jsonStringify, hx]

/-- C6 fails on the code: a thrown object whose own `toString` is not callable
has no payload, no description and no string form; `String(e)` throws in the
`try` and again in the `catch`, and `alert` is never reached. -/
theorem delete_message_dropped :
    ((noStringForm.optGet (units "response")).optGet (units "data")).truthy = false
      ∧ (noStringForm.optGet (units "message")).truthy = false
      ∧ noStringForm.jsString = none
      ∧ deleteMessage noStringForm = none
      ∧ (onDeleteSettle (some "tok") serversShown { q := units "foo" }
          (.fail noStringForm)).alerts = []
      ∧ (onDelete (some "tok") serversShown (units "g1") true (.fail noStringForm)).alerts
          = [] := by
  refine ⟨by decide, by decide, by decide, rfl, rfl, rfl⟩

/-- Whenever `String(e)` has a result, `onDelete` has a message. -/
theorem deleteMessage_some (e : Thrown) (text : JSStr) (h : e.jsString = some text) :
    ∃ m, deleteMessage e = some m := by
  unfold deleteMessage
  by_cases hd : ((e.optGet (units "response")).optGet (units "data")).truthy = true
  · simp only [hd, if_true]
    cases hj : jsonStringify ((e.optGet (units "response")).optGet (units "data")) with
    | none =>
      rw [h]
      exact ⟨_, rfl⟩
    | some r =>
      cases r with
      | none => exact ⟨_, rfl⟩
      | some t => exact ⟨_, rfl⟩
  · simp only [hd, Bool.false_eq_true, if_false]
    by_cases hm : (e.optGet (units "message")).truthy = true
    · simp only [hm, if_true]
      exact ⟨_, rfl⟩
    · simp only [hm, Bool.false_eq_true, if_false]
      rw [h]
      exact ⟨_, rfl⟩

set_option maxRecDepth 8192 in
/-- C6 as amended: a failed confirmed delete sends nothing and shows the
message `deleteMessage` gives, at most one.  If `e.response.data` is truthy
the message is its JSON text, or the string form of `e` when serializing
throws; otherwise, if `e.message` is truthy, the message is `e.message`;
otherwise it is the string form of `e`.  A message is shown whenever `String(e)`
has a result, as for every `Error` instance without an own `toString`.  The
JSON text and the string form are those of JavaScript on the listed values. -/
theorem delete_message_precedence :
    (∀ e : Thrown,
      (∀ token s p, (onDeleteSettle token s p (.fail e)).alerts = (deleteMessage e).toList
          ∧ (onDeleteSettle token s p (.fail e)).requests = []
          ∧ (onDeleteSettle token s p (.fail e)).state = s)
      ∧ (((e.optGet (units "response")).optGet (units "data")).truthy = true →
          (∃ text, jsonStringify ((e.optGet (units "response")).optGet (units "data"))
                = some (some text)
              ∧ deleteMessage e = some (.str text))
            ∨ (jsonStringify ((e.optGet (units "response")).optGet (units "data")) = none
              ∧ deleteMessage e = e.jsString.map JSVal.str))
      ∧ (((e.optGet (units "response")).optGet (units "data")).truthy = false →
          (e.optGet (units "message")).truthy = true →
          deleteMessage e = some (e.optGet (units "message")))
      ∧ (((e.optGet (units "response")).optGet (units "data")).truthy = false →
          (e.optGet (units "message")).truthy = false →
          deleteMessage e = e.jsString.map JSVal.str)
      ∧ (∀ text, e.jsString = some text → ∃ m, deleteMessage e = some m)
      ∧ (∀ name message fs, e = .error name message fs →
          hasField (units "toString") fs = false → ∃ m, deleteMessage e = some m))
    ∧ deleteMessage notFoundError
        = some (.str (units "\x7b\x22detail\x22:\x22not found\x22\x7d"))
    ∧ deleteMessage richPayloadError
        = some (.str (units ("\x7b\x22msg\x22:\x22say \x5c\x22hi\x5c\x22\x5cn\x5cu0001\x5c\x5c" ++
            "\x5cude00x\x5cud83dy\x5cud800😀\x5cud800\x22," ++
            "\x22ctl\x22:\x22\x5cb\x5cf\x5cr\x5ct\x5cu001f\x22," ++
            "\x22list\x22:[1,null,null,true,false,-7,1e+21,0.5]," ++
            "\x22in\x22:\x7b\x22k\x22:[]\x7d\x7d")))
    ∧ deleteMessage zeroPayloadError
        = some (.str (units "Request failed with status code 500"))
    ∧ deleteMessage emptyPayloadError
        = some (.str (units "Request failed with status code 500"))
    ∧ deleteMessage bigintPayloadError = some (.str (units "AxiosError: bad"))
    ∧ deleteMessage (.error (units "Error") (units "Network Error") [])
        = some (.str (units "Network Error"))
    ∧ deleteMessage (.error (units "TypeError") [] []) = some (.str (units "TypeError"))
    ∧ deleteMessage (.error [] [] []) = some (.str [])
    ∧ deleteMessage uriError = some (.str (units "URI malformed"))
    ∧ deleteMessage (.value (.str (units "boom"))) = some (.str (units "boom"))
    ∧ deleteMessage (.value .undefined) = some (.str (units "undefined"))
    ∧ deleteMessage (.value .null) = some (.str (units "null"))
    ∧ deleteMessage (.value (.bool false)) = some (.str (units "false"))
    ∧ deleteMessage (.value (.num ⟨-12, by decide⟩)) = some (.str (units "-12"))
    ∧ deleteMessage (.value (.bigint 5)) = some (.str (units "5"))
    ∧ deleteMessage (.value (.real (units "0.5"))) = some (.str (units "0.5"))
    ∧ deleteMessage (.value (.obj [])) = some (.str (units "[object Object]"))
    ∧ deleteMessage (.value (.arr [.num ⟨1, by decide⟩, .null,
          .arr [.str (units "a"), .undefined], .obj []]))
        = some (.str (units "1,,a,,[object Object]")) := by
  refine ⟨fun e => ⟨fun _ _ _ => ⟨rfl, rfl, rfl⟩, fun hd => ?_, fun hd hm => ?_,
    fun hd hm => ?_, fun text h => deleteMessage_some e text h, fun name message fs he hf => ?_⟩,
    rfl, rfl, rfl, rfl, rfl, rfl, rfl, rfl, rfl, rfl, rfl, rfl, rfl, rfl, rfl, rfl, rfl, rfl⟩
  · have hne := jsonStringify_truthy _ hd
    cases hj : jsonStringify ((e.optGet (units "response")).optGet (units "data")) with
    | none => exact Or.inr ⟨rfl, by simp [deleteMessage, hd, hj]⟩
    | some r =>
      cases r with
      | none => exact absurd hj hne
      | some text => exact Or.inl ⟨text, rfl, by simp [deleteMessage, hd, hj]⟩
  · simp [deleteMessage, hd, hm]
  · simp [deleteMessage, hd, hm]
  · subst he
    have hs : ∃ text, (Thrown.error name message fs).jsString = some text := by
      simp only [Thrown.jsString, hf, Bool.false_eq_true, if_false]
      by_cases hn : name = []
      · simp only [hn, if_true]
        exact ⟨_, rfl⟩
      · by_cases hm : message = []
        · simp only [hn, hm, if_true, if_false]
          exact ⟨_, rfl⟩
        · simp only [hn, hm, if_false]
          exact ⟨_, rfl⟩
    obtain ⟨text, ht⟩ := hs
    exact deleteMessage_some _ text ht

/-- C6 as amended, at concrete failures: a network failure with only a
description, and a 404 whose payload is serialized. -/
theorem delete_message_precedence_witness :
    deleteMessage (.error (units "Error") (units "Network Error") [])
        = some (.str (units "Network Error"))
      ∧ (∃ m, deleteMessage notFoundError = some m) :=
  ⟨(delete_message_precedence.1 (.error (units "Error") (units "Network Error") [])).2.2.1
      (by decide) (by decide),
   (delete_message_precedence.1 notFoundError).2.2.2.2.2 _ _ _ rfl (by decide)⟩

/-! ## Theorems: percent-encoding and the URLs of lib/servers.js -/

theorem uriItems_lit (c : Char) (rest : List Char) (hp : c ≠ '%') :
    uriItems (c :: rest) = (uriItems rest).map fun items => .lit c :: items := by
  rw [uriItems.eq_def]
  simp only [hp, if_false]

theorem uriItems_pct (h l : Char) (rest : List Char) :
    uriItems ('%' :: h :: l :: rest) =
      match hexVal h, hexVal l, uriItems rest with
        | some a, some b, some items => some (.byte (16 * a + b) :: items)
        | _, _, _ => none := by
  rw [uriItems.eq_def]
  simp only [if_true]

theorem hexVal_hexUpper (n : Nat) (h : n < 16) : hexVal (hexUpper n) = some n := by
  interval_cases n <;> decide

theorem uriItems_percentByte (b : Nat) (hb : b < 256) (rest : List Char) :
    uriItems (percentByte b ++ rest) = (uriItems rest).map fun items => .byte b :: items := by
  have h1 : b / 16 < 16 := by omega
  have h2 : b % 16 < 16 := by omega
  have h3 : 16 * (b / 16) + b % 16 = b := by omega
  show uriItems ('%' :: hexUpper (b / 16) :: hexUpper (b % 16) :: rest) = _
  rw [uriItems_pct, hexVal_hexUpper _ h1, hexVal_hexUpper _ h2]
  cases h : uriItems rest <;> simp [h3]

theorem utf8Bytes_lt (n : Nat) (hn : n < 1114112) : ∀ b ∈ utf8Bytes n, b < 256 := by
  intro b hb
  unfold utf8Bytes at hb
  split_ifs at hb <;> simp at hb <;> omega

theorem uriItems_bytes (bs : List Nat) (h : ∀ b ∈ bs, b < 256) (rest : List Char) :
    uriItems (bs.flatMap percentByte ++ rest)
      = (uriItems rest).map fun items => bs.map UriItem.byte ++ items := by
  induction bs with
  | nil => cases h' : uriItems rest <;> simp [h']
  | cons b bs ih =>
    rw [List.flatMap_cons, List.append_assoc, uriItems_percentByte b (h b (by simp)),
      ih (fun x hx => h x (by simp [hx]))]
    cases uriItems rest <;> simp

theorem unreserved_lt (n : Nat) (h : uriUnreserved n = true) : n < 128 := by
  simp only [uriUnreserved, Bool.or_eq_true, Bool.and_eq_true, decide_eq_true_eq] at h
  omega

theorem toNat_ofNat_ascii : ∀ n, n < 128 → (Char.ofNat n).toNat = n := by
  decide

theorem scalar_lt (n : Nat) (h : isScalar n = true) : n < 1114112 := by
  simp only [isScalar, Bool.or_eq_true, Bool.and_eq_true, decide_eq_true_eq] at h
  omega

theorem uriItems_encodeCodePoint (n : Nat) (hn : isScalar n = true) (rest : List Char) :
    uriItems (encodeCodePoint n ++ rest)
      = (uriItems rest).map fun items => itemsOf n ++ items := by
  unfold encodeCodePoint itemsOf
  by_cases hu : uriUnreserved n = true
  · have hp : Char.ofNat n ≠ '%' := by
      intro h
      have h1 := toNat_ofNat_ascii n (unreserved_lt n hu)
      rw [h] at h1
      have h2 : n = 37 := by rw [← h1]; decide
      subst h2
      revert hu
      decide
    simp only [hu, if_true, List.singleton_append]
    exact uriItems_lit _ rest hp
  · simp only [hu, Bool.false_eq_true, if_false]
    exact uriItems_bytes _ (utf8Bytes_lt _ (scalar_lt n hn)) rest

theorem uriAssemble_itemsOf (n : Nat) (hn : isScalar n = true) (ts : List UriItem) :
    uriAssembleFrom .idle (itemsOf n ++ ts)
      = (uriAssembleFrom .idle ts).map fun cps => n :: cps := by
  unfold itemsOf
  by_cases hu : uriUnreserved n = true
  · simp only [hu, if_true, List.singleton_append, uriAssembleFrom,
      toNat_ofNat_ascii n (unreserved_lt n hu)]
  · have hr : n < 55296 ∨ (57343 < n ∧ n < 1114112) := by
      simpa [isScalar] using hn
    simp only [hu, Bool.false_eq_true, if_false, utf8Bytes]
    by_cases h1 : n < 128
    · simp only [h1, if_true, List.map_cons, List.map_nil, List.singleton_append,
        uriAssembleFrom]
    · by_cases h2 : n < 2048
      · have e1 : (192 + n / 64 - 192) * 64 + (128 + n % 64 - 128) = n := by omega
        have a1 : ¬ (192 + n / 64 < 128) := by omega
        have a2 : 192 ≤ 192 + n / 64 ∧ 192 + n / 64 < 224 := by omega
        have a3 : isCont (128 + n % 64) = true := by simp [isCont]; omega
        have a4 : 128 ≤ n := by omega
        simp only [h1, h2, if_true, if_false, List.map_cons, List.map_nil, List.cons_append,
          List.nil_append, uriAssembleFrom, a1, a2, a3, and_self, e1, a4, hn, le_refl]
      · by_cases h3 : n < 65536
        · have e1 : ((224 + n / 4096 - 224) * 64 + (128 + n / 64 % 64 - 128)) * 64
              + (128 + n % 64 - 128) = n := by omega
          have a1 : ¬ (224 + n / 4096 < 128) := by omega
          have a2 : ¬ (192 ≤ 224 + n / 4096 ∧ 224 + n / 4096 < 224) := by omega
          have a3 : 224 ≤ 224 + n / 4096 ∧ 224 + n / 4096 < 240 := by omega
          have c1 : isCont (128 + n / 64 % 64) = true := by simp [isCont]; omega
          have c2 : isCont (128 + n % 64) = true := by simp [isCont]; omega
          have a4 : 2048 ≤ n := by omega
          have k2 : ¬ (2 ≤ 1) := by omega
          simp only [h1, h2, h3, if_true, if_false, List.map_cons, List.map_nil,
            List.cons_append, List.nil_append, uriAssembleFrom, a1, a2, a3, c1, c2, k2,
            and_self, e1, a4, hn, le_refl, Nat.add_one_sub_one, Nat.reduceSub]
        · have e1 : (((240 + n / 262144 - 240) * 64 + (128 + n / 4096 % 64 - 128)) * 64
              + (128 + n / 64 % 64 - 128)) * 64 + (128 + n % 64 - 128) = n := by omega
          have a1 : ¬ (240 + n / 262144 < 128) := by omega
          have a2 : ¬ (192 ≤ 240 + n / 262144 ∧ 240 + n / 262144 < 224) := by omega
          have a3 : ¬ (224 ≤ 240 + n / 262144 ∧ 240 + n / 262144 < 240) := by omega
          have a3' : 240 ≤ 240 + n / 262144 ∧ 240 + n / 262144 < 248 := by omega
          have c0 : isCont (128 + n / 4096 % 64) = true := by simp [isCont]; omega
          have c1 : isCont (128 + n / 64 % 64) = true := by simp [isCont]; omega
          have c2 : isCont (128 + n % 64) = true := by simp [isCont]; omega
          have a4 : 65536 ≤ n := by omega
          have k2 : ¬ (2 ≤ 1) := by omega
          have k3 : ¬ (3 ≤ 1) := by omega
          simp only [h1, h2, h3, if_true, if_false, List.map_cons, List.map_nil,
            List.cons_append, List.nil_append, uriAssembleFrom, a1, a2, a3, a3', c0, c1, c2,
            k2, k3, and_self, e1, a4, hn, le_refl, Nat.add_one_sub_one, Nat.reduceSub]

theorem uriItems_encode (cps : List Nat) (h : ∀ n ∈ cps, isScalar n = true) :
    uriItems (cps.flatMap encodeCodePoint) = some (cps.flatMap itemsOf) := by
  induction cps with
  | nil => rfl
  | cons c cs ih =>
    rw [List.flatMap_cons, uriItems_encodeCodePoint c (h c (by simp)),
      ih (fun n hn => h n (by simp [hn])), List.flatMap_cons]
    rfl

theorem uriAssemble_items (cps : List Nat) (h : ∀ n ∈ cps, isScalar n = true) :
    uriAssembleFrom .idle (cps.flatMap itemsOf) = some cps := by
  induction cps with
  | nil => rfl
  | cons c cs ih =>
    rw [List.flatMap_cons, uriAssemble_itemsOf c (h c (by simp)),
      ih (fun n hn => h n (by simp [hn]))]
    rfl

theorem unit_eq (n : Nat) (u : Fin 65536) (h : n % 65536 = u.val) : unit n = u :=
  Fin.ext h

/-- Reading a string as code points loses nothing: the code points are
Unicode characters and their code units are the string again. -/
theorem codePointsFrom_units (s : JSStr) :
    ∀ (st : Option (Fin 65536)) (cps : List Nat),
      (∀ h, st = some h → isHigh h = true) → codePointsFrom st s = some cps →
      cps.flatMap cpUnits = st.toList ++ s ∧ ∀ n ∈ cps, isScalar n = true := by
  induction s with
  | nil =>
    intro st cps _ h
    cases st with
    | none =>
      simp only [codePointsFrom, Option.some.injEq] at h
      subst h
      simp
    | some hi => simp [codePointsFrom] at h
  | cons u rest ih =>
    intro st cps hst h
    have hu := u.isLt
    cases st with
    | none =>
      simp only [codePointsFrom] at h
      by_cases hh : isHigh u = true
      · simp only [hh, if_true] at h
        obtain ⟨h1, h2⟩ := ih (some u) cps (by intro x hx; cases hx; exact hh) h
        exact ⟨by simpa using h1, h2⟩
      · simp only [hh, Bool.false_eq_true, if_false] at h
        by_cases hl : isLow u = true
        · simp [hl] at h
        · simp only [hl, Bool.false_eq_true, if_false, Option.map_eq_some'] at h
          obtain ⟨cps', hc, rfl⟩ := h
          obtain ⟨h1, h2⟩ := ih none cps' (by intro x hx; cases hx) hc
          have hns : isScalar u.val = true := by
            simp only [isHigh, isLow, Bool.and_eq_true, decide_eq_true_eq, not_and, not_le] at hh hl
            simp only [isScalar, Bool.or_eq_true, Bool.and_eq_true, decide_eq_true_eq]
            omega
          refine ⟨?_, ?_⟩
          · rw [List.flatMap_cons, h1]
            have : cpUnits u.val = [u] := by
              simp only [cpUnits, hu, if_true]
              rw [unit_eq _ u (Nat.mod_eq_of_lt hu)]
            simp [this]
          · intro n hn
            rcases List.mem_cons.mp hn with rfl | hn
            · exact hns
            · exact h2 n hn
    | some hi =>
      have hhi := hst hi rfl
      have hhl := hi.isLt
      simp only [codePointsFrom] at h
      by_cases hl : isLow u = true
      · simp only [hl, if_true, Option.map_eq_some'] at h
        obtain ⟨cps', hc, rfl⟩ := h
        obtain ⟨h1, h2⟩ := ih none cps' (by intro x hx; cases hx) hc
        simp only [isHigh, isLow, Bool.and_eq_true, decide_eq_true_eq] at hhi hl
        refine ⟨?_, ?_⟩
        · rw [List.flatMap_cons, h1]
          have : cpUnits ((hi.val - 55296) * 1024 + (u.val - 56320) + 65536) = [hi, u] := by
            have hge : ¬ ((hi.val - 55296) * 1024 + (u.val - 56320) + 65536 < 65536) := by omega
            simp only [cpUnits, hge, if_false]
            have e1 : (55296 + ((hi.val - 55296) * 1024 + (u.val - 56320) + 65536 - 65536) / 1024)
                % 65536 = hi.val := by omega
            have e2 : (56320 + ((hi.val - 55296) * 1024 + (u.val - 56320) + 65536 - 65536) % 1024)
                % 65536 = u.val := by omega
            rw [unit_eq _ hi e1, unit_eq _ u e2]
          simp [this]
        · intro n hn
          rcases List.mem_cons.mp hn with rfl | hn
          · simp only [isScalar, Bool.or_eq_true, Bool.and_eq_true, decide_eq_true_eq]
            omega
          · exact h2 n hn
      · simp [hl] at h

/-- Decoding what `encodeURIComponent` wrote gives the string back. -/
theorem decode_encode (s : JSStr) (enc : String) (h : encodeURIComponent s = some enc) :
    decodeURIComponent enc = some s := by
  simp only [encodeURIComponent, Option.map_eq_some'] at h
  obtain ⟨cps, hc, rfl⟩ := h
  obtain ⟨h1, h2⟩ := codePointsFrom_units s none cps (by intro x hx; cases hx) hc
  simp only [decodeURIComponent, uriItems_encode cps h2, Option.some_bind, uriAssemble,
    uriAssemble_items cps h2, Option.map_some']
  simpa using h1

theorem send_method_url (token : Option String) (m : Method) (url : String) :
    (send token m url).method = m ∧ (send token m url).url = url := by
  unfold send requestInterceptor baseConfig
  cases token with
  | none => exact ⟨rfl, rfl⟩
  | some t => by_cases ht : t = "" <;> simp [ht]

/-- C9 fails on the code: for a query or an id that holds a lone surrogate,
which is not well formed, `encodeURIComponent` throws; neither
`fetchPublicServers` nor `deleteGroup` sends a request, `load` empties the
list and `onDelete` shows the message of the `URIError`. -/
theorem lone_surrogate_sends_nothing :
    wellFormed [unit 55296] = false
      ∧ encodeURIComponent [unit 55296] = none
      ∧ fetchPublicServers (some "tok") (some [unit 55296]) = none
      ∧ deleteGroup (some "tok") [unit 55296] = none
      ∧ serversLoad (some "tok") serversShown (some [unit 55296])
          = ({ serversShown with items := [], loading := false }, [])
      ∧ (onDeleteClick (some "tok") serversShown [unit 55296] true).2.requests = []
      ∧ (onDeleteClick (some "tok") serversShown [unit 55296] true).2.alerts
          = [.str (units "URI malformed")] := by
  refine ⟨by decide, by decide, by decide, by decide, by decide, by decide, rfl⟩

set_option maxRecDepth 8192 in
/-- C9 as amended: `fetchPublicServers` sends GET on `/api/groups/public/list`,
bare when the query is `null` or the empty text, and followed by `?query=` and
the percent-encoded query when the query is well formed; `deleteGroup` sends
DELETE on `/api/groups/delete?group_id=` and the percent-encoded id when the id
is well formed; decoding the encoded part gives the query or the id back.  For
a text with a lone surrogate nothing is sent.  The encoding leaves letters,
digits and `- _ . ! ~ * ' ( )` as they are and writes every other character
as the `%XX` of its UTF-8 octets. -/
theorem servers_urls (token : Option String) :
    fetchPublicServers token none = some (send token .GET "/api/groups/public/list")
      ∧ fetchPublicServers token (some []) = some (send token .GET "/api/groups/public/list")
      ∧ (∀ (m : Method) (url : String),
          (send token m url).method = m ∧ (send token m url).url = url)
      ∧ (∀ q : JSStr, q ≠ [] → wellFormed q = true →
          ∃ enc, encodeURIComponent q = some enc
            ∧ fetchPublicServers token (some q)
                = some (send token .GET ("/api/groups/public/list?query=" ++ enc))
            ∧ decodeURIComponent enc = some q)
      ∧ (∀ id : JSStr, wellFormed id = true →
          ∃ enc, encodeURIComponent id = some enc
            ∧ deleteGroup token id
                = some (send token .DELETE ("/api/groups/delete?group_id=" ++ enc))
            ∧ decodeURIComponent enc = some id)
      ∧ (∀ t : JSStr, wellFormed t = false →
          encodeURIComponent t = none ∧ fetchPublicServers token (some t) = none
            ∧ deleteGroup token t = none)
      ∧ encodeURIComponent (units
            "ABCDEFGHIJKLMNOPQRSTUVWXYZabcdefghijklmnopqrstuvwxyz0123456789-_.!~*\x27()")
          = some "ABCDEFGHIJKLMNOPQRSTUVWXYZabcdefghijklmnopqrstuvwxyz0123456789-_.!~*\x27()"
      ∧ encodeURIComponent (units " \x22#$%&+,/:;<=>?@[\x5c]^\x60\x7b|\x7d\n")
          = some "%20%22%23%24%25%26%2B%2C%2F%3A%3B%3C%3D%3E%3F%40%5B%5C%5D%5E%60%7B%7C%7D%0A"
      ∧ encodeURIComponent (units "é€😀") = some "%C3%A9%E2%82%AC%F0%9F%98%80"
      ∧ encodeURIComponent [unit 55357, unit 56832] = some "%F0%9F%98%80"
      ∧ wellFormed [unit 55357, unit 56832] = true
      ∧ wellFormed [unit 56832, unit 55357] = false
      ∧ wellFormed [unit 97, unit 56832] = false
      ∧ wellFormed [unit 55357, unit 97] = false
      ∧ wellFormed [unit 55357] = false := by
  have hlit : "/api/groups/public/list" ++ "?query=" = "/api/groups/public/list?query=" := by
    decide
  have hbare : "/api/groups/public/list" ++ "" = "/api/groups/public/list" := by decide
  refine ⟨?_, ?_, fun m url => send_method_url token m url, fun q hq hw => ?_,
    fun id hw => ?_, fun t hw => ?_, by decide, by decide, by decide, by decide, by decide,
    by decide, by decide, by decide, by decide⟩
  · simp [fetchPublicServers, publicServersUrl, hbare]
  · simp [fetchPublicServers, publicServersUrl, hbare]
  · cases he : encodeURIComponent q with
    | none =>
      simp only [wellFormed, Option.isSome_iff_exists] at hw
      obtain ⟨cps, hc⟩ := hw
      simp [encodeURIComponent, hc] at he
    | some enc =>
      refine ⟨enc, rfl, ?_, decode_encode q enc he⟩
      simp only [fetchPublicServers, publicServersUrl, hq, ne_eq, not_false_eq_true, if_true,
        he, Option.map_some']
      rw [← String.append_assoc, hlit]
  · cases he : encodeURIComponent id with
    | none =>
      simp only [wellFormed, Option.isSome_iff_exists] at hw
      obtain ⟨cps, hc⟩ := hw
      simp [encodeURIComponent, hc] at he
    | some enc =>
      exact ⟨enc, rfl, by simp [deleteGroup, deleteGroupUrl, he], decode_encode id enc he⟩
  · have hc : codePoints t = none := by
      cases h : codePoints t with
      | none => rfl
      | some cps => simp [wellFormed, h] at hw
    have he : encodeURIComponent t = none := by simp [encodeURIComponent, hc]
    have hne : t ≠ [] := by
      rintro rfl
      revert hw
      decide
    exact ⟨he, by simp [fetchPublicServers, publicServersUrl, hne, he],
      by simp [deleteGroup, deleteGroupUrl, he]⟩

/-- C9 as amended, at a concrete query with a blank, a slash and a letter
outside ASCII, and at a concrete id. -/
theorem servers_urls_witness :
    (∃ enc, encodeURIComponent (units "a b/é") = some enc
        ∧ fetchPublicServers (some "tok") (some (units "a b/é"))
            = some (send (some "tok") .GET ("/api/groups/public/list?query=" ++ enc))
        ∧ decodeURIComponent enc = some (units "a b/é"))
      ∧ (∃ enc, encodeURIComponent (units "g 1") = some enc
        ∧ deleteGroup (some "tok") (units "g 1")
            = some (send (some "tok") .DELETE ("/api/groups/delete?group_id=" ++ enc))
        ∧ decodeURIComponent enc = some (units "g 1"))
      ∧ encodeURIComponent (units "a b/é") = some "a%20b%2F%C3%A9"
      ∧ decodeURIComponent "a%20b%2F%C3%A9" = some (units "a b/é") :=
  ⟨(servers_urls (some "tok")).2.2.2.1 (units "a b/é") (by decide) (by decide),
   (servers_urls (some "tok")).2.2.2.2.1 (units "g 1") (by decide),
   by decide, by decide⟩

end SecureChat
